import Mathlib

/-!
# Scaffold command (`cli/commands/scaffold/action.go`)

A shallow embedding of `Run`, `listInputs`, `listTerraformFiles` and of the
constant `defaultBoilerplateTemplate`.

Everything the Go code asks of the outside (temporary directories, the
getter, the file system, the HCL parser, the variable loader, the
boilerplate renderer, the formatter) is answered by a `World`, a record of
responses.  A run produces the list of calls it performed (`Event`) and its
result: `nil`, an error value, or a runtime panic.
-/

set_option maxRecDepth 8000

namespace Scaffold

/-! ## Errors and panics -/

/-- A Go `error` value.  `withStackTrace` is what `errors.WithStackTrace`
returns for a non-nil error. -/
inductive Error where
  | raw (msg : String)
  | withStackTrace (cause : Error)
  deriving DecidableEq, Repr

/-- The function `errors.WithStackTrace(err)` for `err != nil`: it wraps the
error with a stack trace, and returns an error that is already wrapped as it
is. -/
def WithStackTrace (err : Error) : Error :=
  match err with
  | Error.withStackTrace cause => Error.withStackTrace cause
  | Error.raw msg => Error.withStackTrace (Error.raw msg)

/-- The two ways a Go function fails to produce its normal result: it returns
a non-nil `error`, or it panics with `index out of range`. -/
inductive Fault where
  | err (e : Error)
  | indexOutOfRange (index length : Nat)
  deriving DecidableEq, Repr

deriving instance DecidableEq for Except

/-! ## HCL documents -/

/-- An `hclsyntax.Block`: its `Type` and its `Labels`. -/
structure Block where
  blockType : String
  Labels : List String
  deriving DecidableEq, Repr

/-- The dynamic type of `file.Body`: an `*hclsyntax.Body` with its `Blocks`,
or some other implementation of `hcl.Body`. -/
inductive Body where
  | hclsyntax (Blocks : List Block)
  | foreign
  deriving DecidableEq, Repr

/-- One `hcl.Diagnostic`: whether its severity is `DiagError`, and its text. -/
structure Diagnostic where
  isError : Bool
  summary : String
  deriving DecidableEq, Repr

/-- The method `diags.HasErrors()`: some diagnostic has severity `DiagError`. -/
def HasErrors (diags : List Diagnostic) : Bool := diags.any (fun d => d.isError)

/-- What `parser.ParseHCL` returns: the file (its body) and the diagnostics. -/
structure ParseResult where
  Body : Body
  diags : List Diagnostic
  deriving DecidableEq, Repr

/-! ## Variables handed to boilerplate -/

/-- A value stored in the `map[string]interface{}` of template variables. -/
inductive Value where
  | string (s : String)
  | strings (xs : List String)
  | any (repr : String)
  deriving DecidableEq, Repr

/-- The variable map `map[string]interface{}`, as a list of bindings with
distinct keys; only lookups by key are meaningful. -/
abbrev Vars := List (String × Value)

/-- Map lookup `vars[key]`. -/
def Vars.get (vars : Vars) (key : String) : Option Value :=
  match vars with
  | [] => none
  | (k, v) :: rest => if k = key then some v else Vars.get rest key

/-- Map assignment `vars[key] = value`: an existing binding of `key` is
replaced. -/
def Vars.set (vars : Vars) (key : String) (value : Value) : Vars :=
  (key, value) :: vars.filter (fun kv => !decide (kv.1 = key))

/-- The collaborator-defined value `boilerplate_options.DefaultMissingKeyAction`. -/
inductive MissingKeyAction where
  | DefaultMissingKeyAction
  deriving DecidableEq, Repr

/-- The collaborator-defined value `boilerplate_options.DefaultMissingConfigAction`. -/
inductive MissingConfigAction where
  | DefaultMissingConfigAction
  deriving DecidableEq, Repr

/-- The fields of `boilerplate_options.BoilerplateOptions` that `Run` sets. -/
structure BoilerplateOptions where
  TemplateFolder : String
  OutputFolder : String
  OnMissingKey : MissingKeyAction
  OnMissingConfig : MissingConfigAction
  Vars : Vars
  NonInteractive : Bool
  deriving DecidableEq, Repr

/-! ## Options, calls and the outside world -/

/-- The fields of `options.TerragruntOptions` that `Run` reads. -/
structure TerragruntOptions where
  TerraformCliArgs : List String
  WorkingDir : String
  ScaffoldVars : List String
  ScaffoldVarFiles : List String
  deriving DecidableEq, Repr

/-- One entry that `filepath.Walk` hands to its callback: the path, whether
`info.IsDir()`, and the error the walk met at that path, if any. -/
structure WalkEntry where
  path : String
  isDir : Bool
  err : Option Error
  deriving DecidableEq, Repr

/-- A call made to a collaborator, in the order of execution. -/
inductive Event where
  | MkdirTemp (dir pattern : String)
  | Infof (format : String) (args : List String)
  | Errorf (format : String) (file : String) (err : Error)
  | Warnf (format : String) (file : String) (diags : List Diagnostic)
  | GetAny (dst src : String)
  | CopyFolderContents (source destination : String)
  | Walk (root : String)
  | ReadFile (name : String)
  | ParseHCL (src filename : String)
  | IsExistingDir (path : String)
  | WriteFile (name data : String) (perm : Nat)
  | ParseVars (varsList varFileList : List String)
  | ProcessTemplate (options : BoilerplateOptions)
  | hclfmtRun (workingDir : String)
  deriving DecidableEq, Repr

/-- The responses of the collaborators.

* `MkdirTemp dir pattern n` answers the `n`-th call (from 0) of `os.MkdirTemp`.
* `dirEntries path` is `some names` when `path` is a directory holding
  `names`, and `none` when `path` is not an existing directory.
* `JoinPath` and `DefaultBoilerplateDir` are the helper and the constant of
  package `util`, which the scaffold command only uses. -/
structure World where
  MkdirTemp : String → String → Nat → Except Error String
  GetAny : String → String → Option Error
  CopyFolderContents : String → String → Option Error
  Walk : String → List WalkEntry
  ReadFile : String → Except Error String
  ParseHCL : String → String → ParseResult
  dirEntries : String → Option (List String)
  WriteFile : String → String → Nat → Option Error
  ParseVars : List String → List String → Except Error Vars
  ProcessTemplate : BoilerplateOptions → Option Error
  /-- Modelled from the spec: the reformatter of package `hclfmt`,
  `reformat(directory) -> error`, run over the destination workspace. -/
  hclfmtRun : String → Option Error
  JoinPath : String → String → String
  DefaultBoilerplateDir : String

/-- The function `files.IsExistingDir(path)`: `os.Stat` succeeds and reports a directory. -/
def IsExistingDir (w : World) (path : String) : Bool := (w.dirEntries path).isSome

/-! ## `listTerraformFiles` -/

/-- The function `filepath.Ext` on the characters of a path, read from the end: the suffix
starting at the last dot of the last path element, or nothing. `seen` holds
the characters already passed, in order. -/
def extRev (seen : List Char) : List Char → List Char
  | [] => []
  | c :: before =>
    if c = '/' then []
    else if c = '.' then c :: seen
    else extRev (c :: seen) before

/-- The function `filepath.Ext(path)`. -/
def Ext (path : String) : String := String.mk (extRev [] path.data.reverse)

/-- The callback of `filepath.Walk` in `listTerraformFiles`, run over the
entries the walk visits: the first entry carrying an error ends the walk with
that error; a non-directory whose extension is `.tf` is appended. -/
def walkFn (tfFiles : List String) : List WalkEntry → List String × Option Error
  | [] => (tfFiles, none)
  | entry :: rest =>
    match entry.err with
    | some err => (tfFiles, some err)
    | none =>
      if !entry.isDir && Ext entry.path = ".tf" then walkFn (tfFiles ++ [entry.path]) rest
      else walkFn tfFiles rest

/-- The function `listTerraformFiles(directoryPath)`: the `.tf` files below the directory,
together with the error of the walk. -/
def listTerraformFiles (w : World) (directoryPath : String) : List String × Option Error :=
  walkFn [] (w.Walk directoryPath)

/-! ## `listInputs` -/

/-- The inner loop of `listInputs` over `body.Blocks`: a block of type
`variable` has its first label read, `block.Labels[0]`, which panics when the
block has no label; a non-empty first label is appended to `foundVars`. -/
def scanBlocks (foundVars : List String) : List Block → Except Fault (List String)
  | [] => Except.ok foundVars
  | block :: rest =>
    if block.blockType = "variable" then
      match block.Labels with
      | [] => Except.error (Fault.indexOutOfRange 0 0)
      | label0 :: _ =>
        if label0.length > 0 then scanBlocks (foundVars ++ [label0]) rest
        else scanBlocks foundVars rest
    else scanBlocks foundVars rest

/-- The outer loop of `listInputs` over `tfFiles`.  A file that fails to read
is logged with `Errorf` and skipped, a file whose diagnostics have errors is
logged with `Warnf` and skipped, a body that is not an `*hclsyntax.Body`
contributes nothing. `log` collects the calls made so far. -/
def scanFiles (w : World) (log : List Event) (foundVars : List String) :
    List String → List Event × Except Fault (List String)
  | [] => (log, Except.ok foundVars)
  | tfFile :: rest =>
    match w.ReadFile tfFile with
    | Except.error err =>
      scanFiles w (log ++ [Event.ReadFile tfFile,
        Event.Errorf "Error reading file %s: %v" tfFile err]) foundVars rest
    | Except.ok content =>
      let parsed := w.ParseHCL content tfFile
      let log1 := log ++ [Event.ReadFile tfFile, Event.ParseHCL content tfFile]
      if HasErrors parsed.diags then
        scanFiles w (log1 ++ [Event.Warnf "Failed to parse HCL in file %s: %v" tfFile parsed.diags])
          foundVars rest
      else
        match parsed.Body with
        | Body.hclsyntax Blocks =>
          match scanBlocks foundVars Blocks with
          | Except.error fault => (log1, Except.error fault)
          | Except.ok found => scanFiles w log1 found rest
        | Body.foreign => scanFiles w log1 foundVars rest

/-- The function `listInputs(opts, directoryPath)`: the calls it makes and its outcome. An
error of the walk is returned wrapped; otherwise the files are scanned. -/
def listInputs (w : World) (directoryPath : String) :
    List Event × Except Fault (List String) :=
  match listTerraformFiles w directoryPath with
  | (_, some err) => ([Event.Walk directoryPath], Except.error (Fault.err (WithStackTrace err)))
  | (tfFiles, none) => scanFiles w [Event.Walk directoryPath] [] tfFiles

/-! ## `defaultBoilerplateTemplate` -/

/-- The constant `defaultBoilerplateTemplate`, character for character. -/
def defaultBoilerplateTemplate : String :=
  "\n# This is a Terragrunt module generated by boilerplate.\nterraform \x7b\n  # $\x7b.moduleUrl\x7d\n  source = \".\"\n\x7d\n\ninputs = \x7b\n  \x7b\x7brange .parsedInputs\x7d\x7d\n  \x7b\x7b.\x7d\x7d = \"\"\n  \x7b\x7bend\x7d\x7d\n\x7d\n"

/-! ## `Run` -/

/-- A guarded read of a positional argument, as in
`if len(args) >= n { v = args[i] }` with `v` initially empty. The read
`args[i]` itself panics when `i` is out of range. -/
def cliArg (args : List String) (n i : Nat) : Except Fault String :=
  if args.length ≥ n then
    match args.get? i with
    | some a => Except.ok a
    | none => Except.error (Fault.indexOutOfRange i args.length)
  else Except.ok ""

/-- The calls a run made and what it returned: `Except.ok ()` is `nil`. -/
structure RunResult where
  trace : List Event
  result : Except Fault Unit
  deriving DecidableEq, Repr

/-- The format of the first log line of `Run`. -/
def scaffoldingFormat : String := "Scaffolding a new Terragrunt module %s %s to %s"

/-- The block `if !files.IsExistingDir(boilerplateDir) { ... }` of `Run`
(`// prepare boilerplate dir`), given the joined path of the module template
directory: the template folder in use afterwards, the calls made, and the
value the block leaves in `err`; or the error of `os.MkdirTemp`, on which
`Run` returns. The result of `os.WriteFile` is only assigned to `err`. -/
def prepareBoilerplateDir (w : World) (boilerplateDir0 : String) :
    Except Error (String × List Event × Option Error) :=
  if !IsExistingDir w boilerplateDir0 then
    match w.MkdirTemp "" "scaffold" 1 with
    | Except.error err => Except.error err
    | Except.ok dir =>
      let name := w.JoinPath dir "terragrunt.hcl"
      Except.ok (dir, [Event.MkdirTemp "" "scaffold",
        Event.WriteFile name defaultBoilerplateTemplate 0o644],
        w.WriteFile name defaultBoilerplateTemplate 0o644)
  else Except.ok (boilerplateDir0, [], none)

/-- The function `Run(opts)`: the calls it makes, in order, and what it returns. -/
def Run (w : World) (opts : TerragruntOptions) : RunResult :=
  match cliArg opts.TerraformCliArgs 2 1 with
  | Except.error fault => ⟨[], Except.error fault⟩
  | Except.ok moduleUrl =>
  match cliArg opts.TerraformCliArgs 3 2 with
  | Except.error fault => ⟨[], Except.error fault⟩
  | Except.ok templateUrl =>
  let t1 := [Event.MkdirTemp "" "scaffold"]
  match w.MkdirTemp "" "scaffold" 0 with
  | Except.error err => ⟨t1, Except.error (Fault.err (WithStackTrace err))⟩
  | Except.ok tempDir =>
  let t2 := t1 ++ [Event.Infof scaffoldingFormat [moduleUrl, templateUrl, opts.WorkingDir],
    Event.GetAny tempDir moduleUrl]
  match w.GetAny tempDir moduleUrl with
  | some err => ⟨t2, Except.error (Fault.err (WithStackTrace err))⟩
  | none =>
  let t3 := t2 ++ [Event.CopyFolderContents tempDir opts.WorkingDir]
  match w.CopyFolderContents tempDir opts.WorkingDir with
  | some err => ⟨t3, Except.error (Fault.err (WithStackTrace err))⟩
  | none =>
  let scan := listInputs w opts.WorkingDir
  let t4 := t3 ++ scan.1
  match scan.2 with
  | Except.error (Fault.err err) => ⟨t4, Except.error (Fault.err (WithStackTrace err))⟩
  | Except.error fault => ⟨t4, Except.error fault⟩
  | Except.ok inputs =>
  let boilerplateDir0 := w.JoinPath opts.WorkingDir w.DefaultBoilerplateDir
  let t5 := t4 ++ [Event.IsExistingDir boilerplateDir0]
  let prepared := prepareBoilerplateDir w boilerplateDir0
  match prepared with
  | Except.error err =>
    ⟨t5 ++ [Event.MkdirTemp "" "scaffold"], Except.error (Fault.err (WithStackTrace err))⟩
  -- `vars, err := variables.ParseVars(...)` assigns `err` anew: the value left
  -- by `os.WriteFile` is never tested
  | Except.ok (boilerplateDir, calls, _) =>
  let t6 := t5 ++ calls ++ [Event.ParseVars opts.ScaffoldVars opts.ScaffoldVarFiles]
  match w.ParseVars opts.ScaffoldVars opts.ScaffoldVarFiles with
  | Except.error err => ⟨t6, Except.error (Fault.err (WithStackTrace err))⟩
  | Except.ok vars0 =>
  let vars1 := Vars.set vars0 "parsedInputs" (Value.strings inputs)
  let vars := Vars.set vars1 "moduleUrl" (Value.string moduleUrl)
  let boilerplateOpts : BoilerplateOptions :=
    { TemplateFolder := boilerplateDir
      OutputFolder := opts.WorkingDir
      OnMissingKey := MissingKeyAction.DefaultMissingKeyAction
      OnMissingConfig := MissingConfigAction.DefaultMissingConfigAction
      Vars := vars
      NonInteractive := true }
  let t7 := t6 ++ [Event.Infof "Running boilerplate in %s" [opts.WorkingDir],
    Event.ProcessTemplate boilerplateOpts]
  match w.ProcessTemplate boilerplateOpts with
  | some err => ⟨t7, Except.error (Fault.err (WithStackTrace err))⟩
  | none =>
  let t8 := t7 ++ [Event.hclfmtRun opts.WorkingDir]
  match w.hclfmtRun opts.WorkingDir with
  | some err => ⟨t8, Except.error (Fault.err (WithStackTrace err))⟩
  | none => ⟨t8, Except.ok ()⟩

/-! ## The template language of the default template

The renderer is Go `text/template`.  The fragment below covers what
`defaultBoilerplateTemplate` uses: literal text, `range` over a sequence of
strings bound to a key, `.` inside the range, `end`; and a key lookup outside
a range.  Anything else is reported as `none`. -/

/-- A lexical item of a template: text outside the delimiters, or the inside
of an action. -/
inductive Token where
  | text (s : String)
  | action (s : List Char)
  | unterminated
  deriving DecidableEq, Repr

/-- The lexer: text runs up to the left delimiter, an action up to the right
one. `inAction` tells the mode, `acc` holds the current item reversed. -/
def lexTemplate : Bool → List Char → List Char → List Token
  | false, acc, '\x7b' :: '\x7b' :: rest =>
    Token.text (String.mk acc.reverse) :: lexTemplate true [] rest
  | false, acc, c :: rest => lexTemplate false (c :: acc) rest
  | false, acc, [] => [Token.text (String.mk acc.reverse)]
  | true, acc, '\x7d' :: '\x7d' :: rest =>
    Token.action acc.reverse :: lexTemplate false [] rest
  | true, acc, c :: rest => lexTemplate true (c :: acc) rest
  | true, _, [] => [Token.unterminated]

/-- The actions of the fragment. -/
inductive Action where
  | rangeOver (key : String)
  | endBlock
  | dot
  | field (key : String)
  | unsupported
  deriving DecidableEq, Repr

/-- Reading the inside of an action. -/
def parseAction : List Char → Action
  | ['e', 'n', 'd'] => Action.endBlock
  | ['.'] => Action.dot
  | 'r' :: 'a' :: 'n' :: 'g' :: 'e' :: ' ' :: '.' :: key => Action.rangeOver (String.mk key)
  | '.' :: key => Action.field (String.mk key)
  | _ => Action.unsupported

/-- A piece of a range body. -/
inductive Item where
  | text (s : String)
  | dot
  deriving DecidableEq, Repr

/-- A node of a parsed template. -/
inductive Node where
  | text (s : String)
  | field (key : String)
  | range (key : String) (body : List Item)
  deriving DecidableEq, Repr

/-- The parser: `open` is the range being read (its key and its body so far),
if any. Ranges do not nest in the fragment. -/
def parseTokens : Option (String × List Item) → List Token → Option (List Node)
  | none, [] => some []
  | some _, [] => none
  | _, Token.unterminated :: _ => none
  | none, Token.text s :: rest => (parseTokens none rest).map (fun ns => Node.text s :: ns)
  | none, Token.action a :: rest =>
    match parseAction a with
    | Action.rangeOver key => parseTokens (some (key, [])) rest
    | Action.field key => (parseTokens none rest).map (fun ns => Node.field key :: ns)
    | _ => none
  | some (key, body), Token.text s :: rest =>
    parseTokens (some (key, body ++ [Item.text s])) rest
  | some (key, body), Token.action a :: rest =>
    match parseAction a with
    | Action.endBlock => (parseTokens none rest).map (fun ns => Node.range key body :: ns)
    | Action.dot => parseTokens (some (key, body ++ [Item.dot])) rest
    | _ => none

/-- Concatenation of the pieces of an output. -/
def concat : List String → String
  | [] => ""
  | s :: rest => s ++ concat rest

/-- One pass of a range body with `.` bound to `elem`. -/
def execBody (elem : String) (body : List Item) : String :=
  concat (body.map (fun item =>
    match item with
    | Item.text s => s
    | Item.dot => elem))

/-- Executing the nodes of a template against the variables. -/
def execNodes (vars : Vars) : List Node → Option String
  | [] => some ""
  | Node.text s :: rest => (execNodes vars rest).map (fun out => s ++ out)
  | Node.field key :: rest =>
    match vars.get key with
    | some (Value.string v) => (execNodes vars rest).map (fun out => v ++ out)
    | _ => none
  | Node.range key body :: rest =>
    match vars.get key with
    | some (Value.strings elems) =>
      (execNodes vars rest).map (fun out =>
        concat (elems.map (fun elem => execBody elem body)) ++ out)
    | _ => none

/-- Rendering a template text with the given variables. -/
def render (template : String) (vars : Vars) : Option String :=
  match parseTokens none (lexTemplate false [] template.data) with
  | none => none
  | some nodes => execNodes vars nodes

/-! ## Vocabulary of the specification -/

/-- The blocks `listInputs` gets to see in a file: those of its body when the
file reads, parses without error diagnostics and has an `*hclsyntax.Body`. -/
def parsedBlocks (w : World) (tfFile : String) : Option (List Block) :=
  match w.ReadFile tfFile with
  | Except.error _ => none
  | Except.ok content =>
    if HasErrors (w.ParseHCL content tfFile).diags then none
    else
      match (w.ParseHCL content tfFile).Body with
      | Body.hclsyntax Blocks => some Blocks
      | Body.foreign => none

/-- The blocks of a file, none for a file that is skipped. -/
def blocksOf (w : World) (tfFile : String) : List Block := (parsedBlocks w tfFile).getD []

/-- A file fails: it does not read, or its parse reports an error. -/
def fileFails (w : World) (tfFile : String) : Bool :=
  match w.ReadFile tfFile with
  | Except.error _ => true
  | Except.ok content => HasErrors (w.ParseHCL content tfFile).diags

/-- The first label of a block, empty when there is none. -/
def firstLabel (b : Block) : String := b.Labels.headD ""

/-- A block declares a variable name: its type is `variable` and its first
label is non-empty. -/
def declares (b : Block) : Bool := decide (b.blockType = "variable") && decide (firstLabel b ≠ "")

/-- The declaring blocks of the given files, in file order and block order. -/
def declaringBlocks (w : World) (tfFiles : List String) : List Block :=
  (tfFiles.map (fun f => (blocksOf w f).filter declares)).flatten

/-- The declared variable names: the first labels of the declaring blocks. -/
def declaredNames (w : World) (tfFiles : List String) : List String :=
  (declaringBlocks w tfFiles).map firstLabel

/-- Every block of type `variable` carries at least one label. -/
def Labelled (blocks : List Block) : Prop :=
  ∀ b ∈ blocks, b.blockType = "variable" → b.Labels ≠ []

/-- The calls a scan makes. -/
def scanCall (e : Event) : Bool :=
  match e with
  | Event.Walk _ => true
  | Event.ReadFile _ => true
  | Event.ParseHCL _ _ => true
  | Event.Errorf _ _ _ => true
  | Event.Warnf _ _ _ => true
  | _ => false

/-- The template folders handed to the renderer during a run. -/
def templateFolders (trace : List Event) : List String :=
  trace.filterMap (fun e =>
    match e with
    | Event.ProcessTemplate options => some options.TemplateFolder
    | _ => none)

/-- The first log line of `Run`, the only call that mentions the template
locator. -/
def isScaffoldingLine (e : Event) : Bool :=
  match e with
  | Event.Infof format _ => decide (format = scaffoldingFormat)
  | _ => false

/-- The calls of a run other than its first log line. -/
def withoutScaffoldingLine (trace : List Event) : List Event :=
  trace.filter (fun e => !isScaffoldingLine e)

/-- The line of the default template that sets the module source. -/
def sourceLine : String := "  source = \".\"\n"

/-- The opening of the rendered default template, up to the inputs. -/
def renderedHeader : String :=
  "\n# This is a Terragrunt module generated by boilerplate.\nterraform \x7b\n  # $\x7b.moduleUrl\x7d\n"
    ++ sourceLine ++ "\x7d\n\ninputs = \x7b\n  "

/-- The text the range body yields for one name: the empty-valued
assignment of that name on a line of its own. -/
def assignment (name : String) : String := "\n  " ++ name ++ " = \"\"\n  "

/-! ## Sample worlds -/

/-- Sample sources with the documents the HCL parser yields for them. -/
def sampleParse (src : String) : ParseResult :=
  if src = "variable \"region\" \x7b\x7d\n" then
    ⟨Body.hclsyntax [⟨"variable", ["region"]⟩], []⟩
  else if src = "variable \"name\" \x7b\x7d\noutput \"id\" \x7b\x7d\nvariable \"region\" \x7b\x7d\n" then
    ⟨Body.hclsyntax [⟨"variable", ["name"]⟩, ⟨"output", ["id"]⟩, ⟨"variable", ["region"]⟩], []⟩
  else if src = "variable \x7b\x7d\n" then
    ⟨Body.hclsyntax [⟨"variable", []⟩], []⟩
  else if src = "variable \"broken\" \x7b\n" then
    ⟨Body.hclsyntax [], [⟨true, "Unclosed configuration block"⟩]⟩
  else ⟨Body.hclsyntax [], []⟩

/-- A world whose workspace `/work` holds the given `.tf` files (name and
content, or the read error), in which the template directory
`/work/.boilerplate` has the entries `boiler` (`none`: it does not exist), the
write of the default template answers `writeErr`, the getter answers
`fetchErr`, and the variable loader yields `user`. -/
def sampleWorld (tf : List (String × Except Error String)) (boiler : Option (List String))
    (writeErr fetchErr : Option Error) (user : Vars) : World where
  MkdirTemp := fun _ _ n => Except.ok (if n = 0 then "/tmp/scaffold1" else "/tmp/scaffold2")
  GetAny := fun _ _ => fetchErr
  CopyFolderContents := fun _ _ => none
  Walk := fun root =>
    ⟨root, true, none⟩ :: (tf.map (fun f => ⟨root ++ "/" ++ f.1, false, none⟩) ++
      (match boiler with
       | none => []
       | some names =>
         ⟨root ++ "/.boilerplate", true, none⟩ ::
           names.map (fun n => ⟨root ++ "/.boilerplate/" ++ n, false, none⟩)))
  ReadFile := fun name =>
    match tf.find? (fun f => "/work/" ++ f.1 = name) with
    | some f => f.2
    | none => Except.error (Error.raw "no such file")
  ParseHCL := fun src _ => sampleParse src
  dirEntries := fun path =>
    if path = "/work" then
      some (tf.map (fun f => f.1) ++ (match boiler with | none => [] | some _ => [".boilerplate"]))
    else if path = "/work/.boilerplate" then boiler
    else if path = "/tmp/scaffold1" ∨ path = "/tmp/scaffold2" then some []
    else none
  WriteFile := fun _ _ _ => writeErr
  ParseVars := fun _ _ => Except.ok user
  ProcessTemplate := fun _ => none
  hclfmtRun := fun _ => none
  JoinPath := fun a b => a ++ "/" ++ b
  DefaultBoilerplateDir := ".boilerplate"

/-- Sample options: `terragrunt scaffold <module> [<template>]` in `/work`. -/
def sampleOpts (args : List String) : TerragruntOptions :=
  ⟨args, "/work", [], []⟩

/-- Two files that both declare `region`. -/
def twoFilesWorld : World :=
  sampleWorld
    [("main.tf", Except.ok "variable \"region\" \x7b\x7d\n"),
     ("vars.tf", Except.ok "variable \"name\" \x7b\x7d\noutput \"id\" \x7b\x7d\nvariable \"region\" \x7b\x7d\n")]
    none none none []

/-- A workspace whose only file `odd.tf` is `variable {}`, a block of type
`variable` without a label. -/
def labelLessWorld : World :=
  sampleWorld [("odd.tf", Except.ok "variable \x7b\x7d\n")] none none none []

/-- An unreadable file, a malformed file, a valid file declaring `region`, and a
valid file holding a `variable` block without a label. -/
def mixedWorld : World :=
  sampleWorld
    [("gone.tf", Except.error (Error.raw "permission denied")),
     ("broken.tf", Except.ok "variable \"broken\" \x7b\n"),
     ("main.tf", Except.ok "variable \"region\" \x7b\x7d\n"),
     ("odd.tf", Except.ok "variable \x7b\x7d\n")]
    none none none []

/-- An unreadable file and a malformed file among two valid ones. -/
def tolerantWorld : World :=
  sampleWorld
    [("gone.tf", Except.error (Error.raw "permission denied")),
     ("main.tf", Except.ok "variable \"region\" \x7b\x7d\n"),
     ("broken.tf", Except.ok "variable \"broken\" \x7b\n"),
     ("vars.tf", Except.ok "variable \"name\" \x7b\x7d\noutput \"id\" \x7b\x7d\nvariable \"region\" \x7b\x7d\n")]
    none none none []

/-- The workspace holds `main.tf` only; no module template directory. -/
def plainWorld : World :=
  sampleWorld [("main.tf", Except.ok "variable \"region\" \x7b\x7d\n")] none none none []

/-- The module template directory `/work/.boilerplate` exists and is empty. -/
def emptyTemplateDirWorld : World :=
  sampleWorld [("main.tf", Except.ok "variable \"region\" \x7b\x7d\n")] (some []) none none []

/-- The module template directory holds a template. -/
def templateDirWorld : World :=
  sampleWorld [("main.tf", Except.ok "variable \"region\" \x7b\x7d\n")]
    (some ["boilerplate.yml", "terragrunt.hcl"]) none none []

/-- No module template directory, and writing the default template fails. -/
def writeFailsWorld : World :=
  sampleWorld [("main.tf", Except.ok "variable \"region\" \x7b\x7d\n")] none
    (some (Error.raw "no space left on device")) none []

/-- The getter fails. -/
def fetchFailsWorld : World :=
  sampleWorld [("main.tf", Except.ok "variable \"region\" \x7b\x7d\n")] none none
    (some (Error.raw "unreachable")) []

/-- The user supplies variables named like the two reserved keys, and one
more. -/
def collidingVarsWorld : World :=
  sampleWorld [("main.tf", Except.ok "variable \"region\" \x7b\x7d\n")] none none none
    [("moduleUrl", Value.any "user-url"), ("owner", Value.string "me"),
     ("parsedInputs", Value.any "user-inputs")]

/-- The files written during a run. -/
def writtenFiles (trace : List Event) : List String :=
  trace.filterMap (fun e =>
    match e with
    | Event.WriteFile name _ _ => some name
    | _ => none)

/-- The variables of the specification example. -/
def exampleVars : Vars :=
  [("moduleUrl", Value.string "git::https://example.com/mod"),
   ("parsedInputs", Value.strings ["region", "name"])]

instance (blocks : List Block) : Decidable (Labelled blocks) := by
  unfold Labelled
  infer_instance

/-! ## Lemmas on the scan -/

theorem length_pos_iff_ne_empty (s : String) : s.length > 0 ↔ s ≠ "" := by
  constructor
  · intro h hs
    subst hs
    simp at h
  · intro h
    rcases s with ⟨cs⟩
    cases cs with
    | nil => exact absurd rfl h
    | cons c rest => simp [String.length]

theorem scanBlocks_labelled (blocks : List Block) :
    ∀ foundVars : List String, Labelled blocks →
      scanBlocks foundVars blocks
        = Except.ok (foundVars ++ (blocks.filter declares).map firstLabel) := by
  induction blocks with
  | nil => intro foundVars _; simp [scanBlocks]
  | cons b rest ih =>
    intro foundVars hl
    have hrest : Labelled rest := fun x hx => hl x (List.mem_cons_of_mem _ hx)
    have hb := hl b (List.mem_cons_self _ _)
    unfold scanBlocks
    by_cases ht : b.blockType = "variable"
    · rw [if_pos ht]
      cases hlab : b.Labels with
      | nil => exact absurd hlab (hb ht)
      | cons label0 more =>
        simp only []
        by_cases hne : label0.length > 0
        · rw [if_pos hne, ih _ hrest]
          have hd : declares b = true := by
            simp [declares, firstLabel, ht, hlab, (length_pos_iff_ne_empty label0).1 hne]
          simp [List.filter_cons, hd, firstLabel, hlab]
        · rw [if_neg hne, ih _ hrest]
          have hempty : label0 = "" := by
            by_contra hc
            exact hne ((length_pos_iff_ne_empty label0).2 hc)
          have hd : declares b = false := by
            simp [declares, firstLabel, hlab, hempty]
          simp [List.filter_cons, hd]
    · rw [if_neg ht, ih _ hrest]
      have hd : declares b = false := by simp [declares, ht]
      simp [List.filter_cons, hd]

theorem scanFiles_labelled (w : World) (tfFiles : List String) :
    ∀ (log : List Event) (foundVars : List String),
      (∀ f ∈ tfFiles, Labelled (blocksOf w f)) →
      (scanFiles w log foundVars tfFiles).2
        = Except.ok (foundVars ++ declaredNames w tfFiles) := by
  induction tfFiles with
  | nil => intro log foundVars _; simp [scanFiles, declaredNames, declaringBlocks]
  | cons f rest ih =>
    intro log foundVars hl
    have hrest : ∀ g ∈ rest, Labelled (blocksOf w g) :=
      fun g hg => hl g (List.mem_cons_of_mem _ hg)
    have hf := hl f (List.mem_cons_self _ _)
    have hnames : ∀ bs, blocksOf w f = bs →
        declaredNames w (f :: rest) = (bs.filter declares).map firstLabel ++ declaredNames w rest := by
      intro bs hbs
      simp [declaredNames, declaringBlocks, hbs]
    unfold scanFiles
    cases hr : w.ReadFile f with
    | error err =>
      simp only []
      rw [ih _ _ hrest, hnames [] (by simp [blocksOf, parsedBlocks, hr])]
      simp
    | ok content =>
      simp only []
      by_cases he : HasErrors (w.ParseHCL content f).diags = true
      · rw [if_pos he, ih _ _ hrest, hnames [] (by simp [blocksOf, parsedBlocks, hr, he])]
        simp
      · rw [if_neg he]
        cases hb : (w.ParseHCL content f).Body with
        | foreign =>
          simp only []
          rw [ih _ _ hrest, hnames [] (by simp [blocksOf, parsedBlocks, hr, he, hb])]
          simp
        | hclsyntax Blocks =>
          simp only []
          have hbs : blocksOf w f = Blocks := by simp [blocksOf, parsedBlocks, hr, he, hb]
          rw [scanBlocks_labelled Blocks foundVars (hbs ▸ hf)]
          simp only []
          rw [ih _ _ hrest, hnames Blocks hbs]
          simp

theorem scanFiles_skips_failing (w : World) (tfFiles : List String) :
    ∀ (log log2 : List Event) (foundVars : List String),
      (scanFiles w log foundVars tfFiles).2
        = (scanFiles w log2 foundVars (tfFiles.filter (fun f => !fileFails w f))).2 := by
  induction tfFiles with
  | nil => intro log log2 foundVars; simp [scanFiles]
  | cons f rest ih =>
    intro log log2 foundVars
    cases hr : w.ReadFile f with
    | error err =>
      have hfail : fileFails w f = true := by simp [fileFails, hr]
      rw [List.filter_cons, hfail]
      simp only [Bool.not_true, Bool.false_eq_true, if_false]
      conv_lhs => unfold scanFiles
      simp only [hr]
      exact ih _ _ _
    | ok content =>
      by_cases he : HasErrors (w.ParseHCL content f).diags = true
      · have hfail : fileFails w f = true := by simp [fileFails, hr, he]
        rw [List.filter_cons, hfail]
        simp only [Bool.not_true, Bool.false_eq_true, if_false]
        conv_lhs => unfold scanFiles
        simp only [hr, he, if_true]
        exact ih _ _ _
      · have hfail : fileFails w f = false := by simp [fileFails, hr, he]
        rw [List.filter_cons, hfail]
        simp only [Bool.not_false, if_true]
        unfold scanFiles
        simp only [hr, he, if_false]
        cases hb : (w.ParseHCL content f).Body with
        | foreign => simp only []; exact ih _ _ _
        | hclsyntax Blocks =>
          simp only []
          cases hs : scanBlocks foundVars Blocks with
          | error fault => rfl
          | ok found => simp only []; exact ih _ _ _

theorem listInputs_of_walk (w : World) (directoryPath : String) (tfFiles : List String)
    (hwalk : listTerraformFiles w directoryPath = (tfFiles, none)) :
    listInputs w directoryPath = scanFiles w [Event.Walk directoryPath] [] tfFiles := by
  simp [listInputs, hwalk]

/-- Partial-failure tolerance of the scan: after a successful walk the outcome
of `listInputs` is the outcome of the scan over the files that neither fail to
read nor fail to parse, and no error value is returned. -/
theorem listInputs_skips_failing_files (w : World) (directoryPath : String)
    (tfFiles : List String) (hwalk : listTerraformFiles w directoryPath = (tfFiles, none)) :
    (listInputs w directoryPath).2
      = (scanFiles w [Event.Walk directoryPath] []
          (tfFiles.filter (fun f => !fileFails w f))).2 := by
  rw [listInputs_of_walk w directoryPath tfFiles hwalk]
  exact scanFiles_skips_failing w tfFiles _ _ _

/-- With every `variable` block labelled, the scan returns the declared names of
the files that read and parse. -/
theorem listInputs_returns_declared (w : World) (directoryPath : String)
    (tfFiles : List String) (hwalk : listTerraformFiles w directoryPath = (tfFiles, none))
    (hlab : ∀ f ∈ tfFiles, Labelled (blocksOf w f)) :
    (listInputs w directoryPath).2 = Except.ok (declaredNames w tfFiles) := by
  rw [listInputs_of_walk w directoryPath tfFiles hwalk, scanFiles_labelled w tfFiles _ _ hlab]
  simp

theorem declares_firstLabel_ne (b : Block) (h : declares b = true) : firstLabel b ≠ "" := by
  simp [declares] at h
  exact h.2

/-! ## Claims on `listInputs` -/

/-- C1 (counterexample): with `region` declared in `main.tf` and again in
`vars.tf`, `listInputs` returns `region` twice: the result is not free of
duplicates and its length 3 is not the number 2 of distinct names. -/
theorem C1_counterexample_duplicate_kept :
    ∃ names, (listInputs twoFilesWorld "/work").2 = Except.ok names
      ∧ ¬ names.Nodup ∧ names.length = 3 ∧ names.dedup.length = 2 :=
  ⟨["region", "name", "region"], by decide, by decide, by decide, by decide⟩

/-- C1 (amended): when the walk succeeds and every `variable` block of the
files that parse carries a label, `listInputs` returns the declared variable
names in discovery order with every repetition kept: the result is the list
of first labels of the declaring blocks, its length is the number of
declaring blocks, and each name occurs as many times as it is declared. -/
theorem C1_listInputs_keeps_every_declaration (w : World) (directoryPath : String)
    (tfFiles : List String) (hwalk : listTerraformFiles w directoryPath = (tfFiles, none))
    (hlab : ∀ f ∈ tfFiles, Labelled (blocksOf w f)) :
    ∃ names, (listInputs w directoryPath).2 = Except.ok names
      ∧ names = (declaringBlocks w tfFiles).map firstLabel
      ∧ names.length = (declaringBlocks w tfFiles).length
      ∧ ∀ n, names.count n = (declaringBlocks w tfFiles).countP (fun b => firstLabel b = n) := by
  refine ⟨declaredNames w tfFiles,
    listInputs_returns_declared w directoryPath tfFiles hwalk hlab, rfl, ?_, ?_⟩
  · simp [declaredNames]
  · intro n
    simp only [declaredNames, List.count, List.countP_map, Function.comp_def]
    congr 1

/-- C1 (witness): the amended statement at the two files declaring `region`. -/
theorem C1_witness_two_files :
    ∃ names, (listInputs twoFilesWorld "/work").2 = Except.ok names
      ∧ names = (declaringBlocks twoFilesWorld ["/work/main.tf", "/work/vars.tf"]).map firstLabel
      ∧ names.length = (declaringBlocks twoFilesWorld ["/work/main.tf", "/work/vars.tf"]).length
      ∧ ∀ n, names.count n
          = (declaringBlocks twoFilesWorld ["/work/main.tf", "/work/vars.tf"]).countP
              (fun b => firstLabel b = n) :=
  C1_listInputs_keeps_every_declaration twoFilesWorld "/work" ["/work/main.tf", "/work/vars.tf"]
    (by decide) (by decide)

/-- C3: when the walk succeeds, every listed file reads and parses, and every
`variable` block carries a label, `listInputs` returns the concatenation, in
file order and block order, of the first labels of the blocks of type
`variable` with a non-empty first label; every returned name is non-empty. -/
theorem C3_listInputs_concatenates_first_labels (w : World) (directoryPath : String)
    (tfFiles : List String) (hwalk : listTerraformFiles w directoryPath = (tfFiles, none))
    (hparsed : ∀ f ∈ tfFiles, ∃ blocks, parsedBlocks w f = some blocks ∧ Labelled blocks) :
    ∃ names, (listInputs w directoryPath).2 = Except.ok names
      ∧ names = (tfFiles.map (fun f =>
          ((blocksOf w f).filter (fun b =>
            decide (b.blockType = "variable") && decide (firstLabel b ≠ ""))).map firstLabel)).flatten
      ∧ ∀ n ∈ names, n ≠ "" := by
  have hlab : ∀ f ∈ tfFiles, Labelled (blocksOf w f) := by
    intro f hf
    obtain ⟨blocks, hb, hl⟩ := hparsed f hf
    simpa [blocksOf, hb] using hl
  refine ⟨declaredNames w tfFiles,
    listInputs_returns_declared w directoryPath tfFiles hwalk hlab, ?_, ?_⟩
  · simp only [declaredNames, declaringBlocks, List.map_flatten, List.map_map]
    rfl
  · intro n hn
    simp only [declaredNames, List.mem_map] at hn
    obtain ⟨b, hb, rfl⟩ := hn
    simp only [declaringBlocks, List.mem_flatten, List.mem_map] at hb
    obtain ⟨l, ⟨f, _, rfl⟩, hbl⟩ := hb
    exact declares_firstLabel_ne b (List.mem_filter.1 hbl).2

/-- C3 (witness): two files that parse, one of them with an `output` block. -/
theorem C3_witness_two_files :
    ∃ names, (listInputs twoFilesWorld "/work").2 = Except.ok names
      ∧ names = (["/work/main.tf", "/work/vars.tf"].map (fun f =>
          ((blocksOf twoFilesWorld f).filter (fun b =>
            decide (b.blockType = "variable") && decide (firstLabel b ≠ ""))).map firstLabel)).flatten
      ∧ ∀ n ∈ names, n ≠ "" :=
  C3_listInputs_concatenates_first_labels twoFilesWorld "/work" ["/work/main.tf", "/work/vars.tf"]
    (by decide) (by decide)

/-- C4 (failing input): the walk succeeds over an unreadable file, a malformed
file, a valid file declaring `region` and a valid file holding `variable {}`;
`listInputs` does not return: it panics on `block.Labels[0]`, so `region` is
not discovered. -/
theorem C4_listInputs_panics_among_skipped_files :
    listTerraformFiles mixedWorld "/work"
        = (["/work/gone.tf", "/work/broken.tf", "/work/main.tf", "/work/odd.tf"], none)
      ∧ fileFails mixedWorld "/work/gone.tf" = true
      ∧ fileFails mixedWorld "/work/broken.tf" = true
      ∧ parsedBlocks mixedWorld "/work/main.tf" = some [⟨"variable", ["region"]⟩]
      ∧ fileFails mixedWorld "/work/odd.tf" = false
      ∧ (listInputs mixedWorld "/work").2 = Except.error (Fault.indexOutOfRange 0 0) := by
  decide

/-- C9 (failing input): `odd.tf` parses to a single block of type `variable`
with no label; the scan loop reads `block.Labels[0]` and panics with index
out of range, the block is not skipped. -/
theorem C9_listInputs_panics_on_label_less_variable :
    parsedBlocks labelLessWorld "/work/odd.tf" = some [⟨"variable", []⟩]
      ∧ scanBlocks [] [⟨"variable", []⟩] = Except.error (Fault.indexOutOfRange 0 0)
      ∧ (listInputs labelLessWorld "/work").2 = Except.error (Fault.indexOutOfRange 0 0) := by
  decide

/-! ## Lemmas on `Run` -/

theorem cliArg_two (args : List String) : cliArg args 2 1 = Except.ok (args.getD 1 "") := by
  rcases args with _ | ⟨a, _ | ⟨b, rest⟩⟩ <;> simp [cliArg]

theorem cliArg_three (args : List String) : cliArg args 3 2 = Except.ok (args.getD 2 "") := by
  rcases args with _ | ⟨a, _ | ⟨b, _ | ⟨c, rest⟩⟩⟩ <;> simp [cliArg]

theorem scanFiles_calls (w : World) (tfFiles : List String) :
    ∀ (log : List Event) (foundVars : List String), (∀ e ∈ log, scanCall e = true) →
      ∀ e ∈ (scanFiles w log foundVars tfFiles).1, scanCall e = true := by
  induction tfFiles with
  | nil => intro log foundVars hlog; simpa [scanFiles] using hlog
  | cons f rest ih =>
    intro log foundVars hlog
    unfold scanFiles
    cases hr : w.ReadFile f with
    | error err =>
      simp only []
      apply ih
      intro e he
      simp only [List.mem_append, List.mem_cons, List.mem_singleton, List.not_mem_nil,
        or_false] at he
      rcases he with he | rfl | rfl
      · exact hlog e he
      · rfl
      · rfl
    | ok content =>
      simp only []
      have hlog1 : ∀ e ∈ log ++ [Event.ReadFile f, Event.ParseHCL content f],
          scanCall e = true := by
        intro e he
        simp only [List.mem_append, List.mem_cons, List.mem_singleton, List.not_mem_nil,
          or_false] at he
        rcases he with he | rfl | rfl
        · exact hlog e he
        · rfl
        · rfl
      split
      · apply ih
        intro e he
        rcases List.mem_append.1 he with he | he
        · exact hlog1 e he
        · simp only [List.mem_singleton] at he
          subst he
          rfl
      · split
        · split
          · exact hlog1
          · exact ih _ _ hlog1
        · exact ih _ _ hlog1

theorem listInputs_calls (w : World) (directoryPath : String) :
    ∀ e ∈ (listInputs w directoryPath).1, scanCall e = true := by
  unfold listInputs
  split
  · intro e he
    simp only [List.mem_singleton] at he
    subst he
    rfl
  · apply scanFiles_calls
    intro e he
    simp only [List.mem_singleton] at he
    subst he
    rfl

/-- The two ways the template directory block ends without an error. -/
theorem prepareBoilerplateDir_ok (w : World) (dir0 folder : String) (calls : List Event)
    (werr : Option Error) (h : prepareBoilerplateDir w dir0 = Except.ok (folder, calls, werr)) :
    (IsExistingDir w dir0 = true ∧ folder = dir0 ∧ calls = [] ∧ werr = none)
    ∨ (IsExistingDir w dir0 = false ∧ w.MkdirTemp "" "scaffold" 1 = Except.ok folder
        ∧ calls = [Event.MkdirTemp "" "scaffold",
            Event.WriteFile (w.JoinPath folder "terragrunt.hcl") defaultBoilerplateTemplate 0o644]
        ∧ werr = w.WriteFile (w.JoinPath folder "terragrunt.hcl") defaultBoilerplateTemplate 0o644) := by
  unfold prepareBoilerplateDir at h
  cases hd : IsExistingDir w dir0 with
  | true =>
    left
    simp [hd] at h
    simp [h]
  | false =>
    right
    simp only [hd, Bool.not_false, if_true] at h
    cases hm : w.MkdirTemp "" "scaffold" 1 with
    | error e => simp [hm] at h
    | ok dir =>
      simp [hm] at h
      obtain ⟨rfl, rfl, rfl⟩ := h
      simp

/-- A run that reaches the renderer: every earlier step succeeded, and the
trace and the options handed over are as follows. -/
theorem Run_render_inv (w : World) (opts : TerragruntOptions) (bo : BoilerplateOptions)
    (h : Event.ProcessTemplate bo ∈ (Run w opts).trace) :
    ∃ tempDir inputs user folder calls werr post,
      w.MkdirTemp "" "scaffold" 0 = Except.ok tempDir
      ∧ (listInputs w opts.WorkingDir).2 = Except.ok inputs
      ∧ prepareBoilerplateDir w (w.JoinPath opts.WorkingDir w.DefaultBoilerplateDir)
          = Except.ok (folder, calls, werr)
      ∧ w.ParseVars opts.ScaffoldVars opts.ScaffoldVarFiles = Except.ok user
      ∧ bo = { TemplateFolder := folder
               OutputFolder := opts.WorkingDir
               OnMissingKey := MissingKeyAction.DefaultMissingKeyAction
               OnMissingConfig := MissingConfigAction.DefaultMissingConfigAction
               Vars := Vars.set (Vars.set user "parsedInputs" (Value.strings inputs))
                 "moduleUrl" (Value.string (opts.TerraformCliArgs.getD 1 ""))
               NonInteractive := true }
      ∧ (Run w opts).trace
          = [Event.MkdirTemp "" "scaffold",
              Event.Infof scaffoldingFormat
                [opts.TerraformCliArgs.getD 1 "", opts.TerraformCliArgs.getD 2 "", opts.WorkingDir],
              Event.GetAny tempDir (opts.TerraformCliArgs.getD 1 ""),
              Event.CopyFolderContents tempDir opts.WorkingDir]
            ++ (listInputs w opts.WorkingDir).1
            ++ [Event.IsExistingDir (w.JoinPath opts.WorkingDir w.DefaultBoilerplateDir)]
            ++ calls
            ++ [Event.ParseVars opts.ScaffoldVars opts.ScaffoldVarFiles,
                Event.Infof "Running boilerplate in %s" [opts.WorkingDir],
                Event.ProcessTemplate bo]
            ++ post
      ∧ (post = [] ∨ post = [Event.hclfmtRun opts.WorkingDir]) := by
  have hscan : ∀ x, Event.ProcessTemplate x ∉ (listInputs w opts.WorkingDir).1 := by
    intro x hx
    have := listInputs_calls w opts.WorkingDir _ hx
    simp [scanCall] at this
  unfold Run at h
  rw [cliArg_two, cliArg_three] at h
  simp only [] at h
  cases h0 : w.MkdirTemp "" "scaffold" 0 with
  | error e => rw [h0] at h; simp at h
  | ok tempDir =>
    rw [h0] at h
    simp only [] at h
    cases h1 : w.GetAny tempDir (opts.TerraformCliArgs.getD 1 "") with
    | some e => rw [h1] at h; simp at h
    | none =>
      rw [h1] at h
      simp only [] at h
      cases h2 : w.CopyFolderContents tempDir opts.WorkingDir with
      | some e => rw [h2] at h; simp at h
      | none =>
        rw [h2] at h
        simp only [] at h
        cases h3 : (listInputs w opts.WorkingDir).2 with
        | error fault =>
          rw [h3] at h
          cases fault <;> simp [hscan] at h
        | ok inputs =>
          rw [h3] at h
          simp only [] at h
          cases h4 : prepareBoilerplateDir w (w.JoinPath opts.WorkingDir w.DefaultBoilerplateDir) with
          | error e => rw [h4] at h; simp [hscan] at h
          | ok prepared =>
            obtain ⟨folder, calls, werr⟩ := prepared
            have hcalls : ∀ x, Event.ProcessTemplate x ∉ calls := by
              intro x hx
              rcases prepareBoilerplateDir_ok w _ folder calls werr h4 with hc | hc
              · simp [hc.2.2.1] at hx
              · simp [hc.2.2.1] at hx
            rw [h4] at h
            simp only [] at h
            cases h5 : w.ParseVars opts.ScaffoldVars opts.ScaffoldVarFiles with
            | error e => rw [h5] at h; simp [hscan, hcalls] at h
            | ok user =>
              rw [h5] at h
              simp only [] at h
              refine ⟨tempDir, inputs, user, folder, calls, werr, ?_⟩
              cases h6 : w.ProcessTemplate
                  { TemplateFolder := folder
                    OutputFolder := opts.WorkingDir
                    OnMissingKey := MissingKeyAction.DefaultMissingKeyAction
                    OnMissingConfig := MissingConfigAction.DefaultMissingConfigAction
                    Vars := Vars.set (Vars.set user "parsedInputs" (Value.strings inputs))
                      "moduleUrl" (Value.string (opts.TerraformCliArgs.getD 1 ""))
                    NonInteractive := true } with
              | some e =>
                rw [h6] at h
                simp only [List.mem_append, List.mem_cons, List.mem_singleton, List.not_mem_nil, hscan,
                  hcalls, Event.ProcessTemplate.injEq, reduceCtorEq, false_or, or_false] at h
                refine ⟨[], rfl, rfl, rfl, rfl, ?_, ?_, Or.inl rfl⟩
                · rw [h]
                · unfold Run
                  rw [cliArg_two, cliArg_three]
                  simp only [h0, h1, h2, h3, h4, h5, h6]
                  rw [h]
                  simp
              | none =>
                rw [h6] at h
                simp only [] at h
                cases h7 : w.hclfmtRun opts.WorkingDir with
                | some e =>
                  rw [h7] at h
                  simp only [List.mem_append, List.mem_cons, List.mem_singleton, List.not_mem_nil, hscan,
                  hcalls, Event.ProcessTemplate.injEq, reduceCtorEq, false_or, or_false] at h
                  refine ⟨[Event.hclfmtRun opts.WorkingDir], rfl, rfl, rfl, rfl, ?_, ?_, Or.inr rfl⟩
                  · rw [h]
                  · unfold Run
                    rw [cliArg_two, cliArg_three]
                    simp only [h0, h1, h2, h3, h4, h5, h6, h7]
                    rw [h]
                    simp
                | none =>
                  rw [h7] at h
                  simp only [List.mem_append, List.mem_cons, List.mem_singleton, List.not_mem_nil, hscan,
                  hcalls, Event.ProcessTemplate.injEq, reduceCtorEq, false_or, or_false] at h
                  refine ⟨[Event.hclfmtRun opts.WorkingDir], rfl, rfl, rfl, rfl, ?_, ?_, Or.inr rfl⟩
                  · rw [h]
                  · unfold Run
                    rw [cliArg_two, cliArg_three]
                    simp only [h0, h1, h2, h3, h4, h5, h6, h7]
                    rw [h]
                    simp

theorem Vars.get_filter_ne (vars : Vars) (key other : String) (h : other ≠ key) :
    Vars.get (vars.filter (fun kv => !decide (kv.1 = key))) other = Vars.get vars other := by
  induction vars with
  | nil => rfl
  | cons kv rest ih =>
    obtain ⟨k, v⟩ := kv
    by_cases hk : k = key
    · subst hk
      have hne : k ≠ other := fun hc => h hc.symm
      simp [List.filter_cons, Vars.get, hne, ih]
    · by_cases ho : k = other
      · subst ho
        simp [List.filter_cons, Vars.get, hk]
      · simp [List.filter_cons, Vars.get, hk, ho, ih]

theorem Vars.get_set_same (vars : Vars) (key : String) (value : Value) :
    Vars.get (Vars.set vars key value) key = some value := by
  simp [Vars.set, Vars.get]

theorem Vars.get_set_other (vars : Vars) (key other : String) (value : Value)
    (h : other ≠ key) : Vars.get (Vars.set vars key value) other = Vars.get vars other := by
  have hne : key ≠ other := fun hc => h hc.symm
  simp [Vars.set, Vars.get, hne, Vars.get_filter_ne vars key other h]

/-! ## Claims on `Run` -/

/-- C2: the variables of every call `Run` makes to the renderer bind
`parsedInputs` to the sequence `listInputs` returned and `moduleUrl` to the
module locator (second CLI argument, or empty), whatever the variable loader
returned under those names; every other key has the value the loader gave. -/
theorem C2_reserved_keys_override_user_vars (w : World) (opts : TerragruntOptions)
    (bo : BoilerplateOptions) (h : Event.ProcessTemplate bo ∈ (Run w opts).trace) :
    ∃ user inputs,
      w.ParseVars opts.ScaffoldVars opts.ScaffoldVarFiles = Except.ok user
      ∧ (listInputs w opts.WorkingDir).2 = Except.ok inputs
      ∧ Vars.get bo.Vars "parsedInputs" = some (Value.strings inputs)
      ∧ Vars.get bo.Vars "moduleUrl" = some (Value.string (opts.TerraformCliArgs.getD 1 ""))
      ∧ ∀ key, key ≠ "parsedInputs" → key ≠ "moduleUrl" →
          Vars.get bo.Vars key = Vars.get user key := by
  obtain ⟨tempDir, inputs, user, folder, calls, werr, post, _, hin, _, huser, hbo, _, _⟩ :=
    Run_render_inv w opts bo h
  refine ⟨user, inputs, huser, hin, ?_, ?_, ?_⟩
  · rw [hbo]
    show Vars.get (Vars.set (Vars.set user "parsedInputs" _) "moduleUrl" _) "parsedInputs" = _
    rw [Vars.get_set_other _ _ _ _ (by decide), Vars.get_set_same]
  · rw [hbo]
    exact Vars.get_set_same _ _ _
  · intro key h1 h2
    rw [hbo]
    show Vars.get (Vars.set (Vars.set user "parsedInputs" _) "moduleUrl" _) key = _
    rw [Vars.get_set_other _ _ _ _ h2, Vars.get_set_other _ _ _ _ h1]

/-- C2 (witness): the user supplies `moduleUrl`, `parsedInputs` and `owner`. -/
theorem C2_witness_colliding_user_vars :
    ∃ user inputs,
      collidingVarsWorld.ParseVars [] [] = Except.ok user
      ∧ (listInputs collidingVarsWorld "/work").2 = Except.ok inputs
      ∧ Vars.get [("moduleUrl", Value.string "git::https://example.com/mod"),
            ("parsedInputs", Value.strings ["region"]), ("owner", Value.string "me")]
          "parsedInputs" = some (Value.strings inputs)
      ∧ Vars.get [("moduleUrl", Value.string "git::https://example.com/mod"),
            ("parsedInputs", Value.strings ["region"]), ("owner", Value.string "me")]
          "moduleUrl" = some (Value.string "git::https://example.com/mod")
      ∧ ∀ key, key ≠ "parsedInputs" → key ≠ "moduleUrl" →
          Vars.get [("moduleUrl", Value.string "git::https://example.com/mod"),
            ("parsedInputs", Value.strings ["region"]), ("owner", Value.string "me")] key
            = Vars.get user key :=
  C2_reserved_keys_override_user_vars collidingVarsWorld
    (sampleOpts ["scaffold", "git::https://example.com/mod"])
    { TemplateFolder := "/tmp/scaffold2"
      OutputFolder := "/work"
      OnMissingKey := MissingKeyAction.DefaultMissingKeyAction
      OnMissingConfig := MissingConfigAction.DefaultMissingConfigAction
      Vars := [("moduleUrl", Value.string "git::https://example.com/mod"),
        ("parsedInputs", Value.strings ["region"]), ("owner", Value.string "me")]
      NonInteractive := true }
    (by decide)

/-- C5 (counterexample): the module template directory `/work/.boilerplate`
exists and is empty, and `Run` hands that empty directory to the renderer; no
temporary directory is created for a template and no default template file
is written. -/
theorem C5_counterexample_empty_template_dir :
    emptyTemplateDirWorld.dirEntries "/work/.boilerplate" = some []
      ∧ templateFolders (Run emptyTemplateDirWorld (sampleOpts ["scaffold", "./mod"])).trace
          = ["/work/.boilerplate"]
      ∧ writtenFiles (Run emptyTemplateDirWorld (sampleOpts ["scaffold", "./mod"])).trace = []
      ∧ (Run emptyTemplateDirWorld (sampleOpts ["scaffold", "./mod"])).result = Except.ok () := by
  decide

/-- C5 (amended): whenever `Run` calls the renderer, the template folder is
decided by the existence of the module template directory alone. If it exists
as a directory (empty or not) it is the template folder and `Run` writes no
file; if it does not, `Run` creates a temporary directory with `os.MkdirTemp`,
issues the write of `terragrunt.hcl` with the default template into it, writes
nothing else, and the temporary directory is the template folder. -/
theorem C5_template_folder_by_existence (w : World) (opts : TerragruntOptions)
    (bo : BoilerplateOptions) (h : Event.ProcessTemplate bo ∈ (Run w opts).trace) :
    (IsExistingDir w (w.JoinPath opts.WorkingDir w.DefaultBoilerplateDir) = true →
        bo.TemplateFolder = w.JoinPath opts.WorkingDir w.DefaultBoilerplateDir
        ∧ ∀ name data perm, Event.WriteFile name data perm ∉ (Run w opts).trace)
    ∧ (IsExistingDir w (w.JoinPath opts.WorkingDir w.DefaultBoilerplateDir) = false →
        ∃ dir, w.MkdirTemp "" "scaffold" 1 = Except.ok dir
          ∧ bo.TemplateFolder = dir
          ∧ ∀ name data perm, Event.WriteFile name data perm ∈ (Run w opts).trace ↔
              (name = w.JoinPath dir "terragrunt.hcl" ∧ data = defaultBoilerplateTemplate
                ∧ perm = 0o644)) := by
  obtain ⟨tempDir, inputs, user, folder, calls, werr, post, _, _, hprep, _, hbo, htrace, hpost⟩ :=
    Run_render_inv w opts bo h
  have hscan : ∀ name data perm,
      Event.WriteFile name data perm ∉ (listInputs w opts.WorkingDir).1 := by
    intro name data perm hx
    have := listInputs_calls w opts.WorkingDir _ hx
    simp [scanCall] at this
  have hpost2 : ∀ name data perm, Event.WriteFile name data perm ∉ post := by
    intro name data perm hx
    rcases hpost with hp | hp <;> simp [hp] at hx
  have hfolder : bo.TemplateFolder = folder := by rw [hbo]
  rcases prepareBoilerplateDir_ok w _ folder calls werr hprep with hc | hc
  · obtain ⟨hex, hf, hcalls, _⟩ := hc
    constructor
    · intro _
      refine ⟨hfolder.trans hf, ?_⟩
      intro name data perm hx
      rw [htrace, hcalls] at hx
      simp only [List.mem_append, List.mem_cons, List.mem_singleton, List.not_mem_nil,
        reduceCtorEq, false_or, or_false, hscan, hpost2] at hx
    · intro hne
      rw [hex] at hne
      exact absurd hne (by decide)
  · obtain ⟨hex, hm, hcalls, _⟩ := hc
    constructor
    · intro he
      rw [hex] at he
      exact absurd he (by decide)
    · intro _
      refine ⟨folder, hm, hfolder, ?_⟩
      intro name data perm
      rw [htrace, hcalls]
      simp only [List.mem_append, List.mem_cons, List.mem_singleton, List.not_mem_nil,
        reduceCtorEq, false_or, or_false, hscan, hpost2, Event.WriteFile.injEq]

/-- C5 (witness): a workspace whose module template directory holds a
template. -/
theorem C5_witness_template_dir :
    (IsExistingDir templateDirWorld
          (templateDirWorld.JoinPath "/work" templateDirWorld.DefaultBoilerplateDir) = true →
        "/work/.boilerplate"
            = templateDirWorld.JoinPath "/work" templateDirWorld.DefaultBoilerplateDir
        ∧ ∀ name data perm, Event.WriteFile name data perm ∉
            (Run templateDirWorld (sampleOpts ["scaffold", "./mod"])).trace)
    ∧ (IsExistingDir templateDirWorld
          (templateDirWorld.JoinPath "/work" templateDirWorld.DefaultBoilerplateDir) = false →
        ∃ dir, templateDirWorld.MkdirTemp "" "scaffold" 1 = Except.ok dir
          ∧ "/work/.boilerplate" = dir
          ∧ ∀ name data perm, Event.WriteFile name data perm ∈
              (Run templateDirWorld (sampleOpts ["scaffold", "./mod"])).trace ↔
                (name = templateDirWorld.JoinPath dir "terragrunt.hcl"
                  ∧ data = defaultBoilerplateTemplate ∧ perm = 0o644)) :=
  C5_template_folder_by_existence templateDirWorld (sampleOpts ["scaffold", "./mod"])
    { TemplateFolder := "/work/.boilerplate"
      OutputFolder := "/work"
      OnMissingKey := MissingKeyAction.DefaultMissingKeyAction
      OnMissingConfig := MissingConfigAction.DefaultMissingConfigAction
      Vars := [("moduleUrl", Value.string "./mod"), ("parsedInputs", Value.strings ["region"])]
      NonInteractive := true }
    (by decide)

/-- The answer of `os.WriteFile` has no effect on a run: two worlds that
differ in it alone produce the same calls and the same result. -/
theorem Run_ignores_WriteFile (w : World) (opts : TerragruntOptions)
    (answer : String → String → Nat → Option Error) :
    Run { w with WriteFile := answer } opts = Run w opts := by
  have hl : listInputs { w with WriteFile := answer } opts.WorkingDir
      = listInputs w opts.WorkingDir := by
    have hs : ∀ (files : List String) (log : List Event) (found : List String),
        scanFiles { w with WriteFile := answer } log found files = scanFiles w log found files := by
      intro files
      induction files with
      | nil => intro log found; rfl
      | cons f rest ih =>
        intro log found
        unfold scanFiles
        simp only [ih]
    simp only [listInputs, listTerraformFiles, hs]
  have hp : ∀ dir0, (prepareBoilerplateDir { w with WriteFile := answer } dir0).map
      (fun r => (r.1, r.2.1)) = (prepareBoilerplateDir w dir0).map (fun r => (r.1, r.2.1)) := by
    intro dir0
    unfold prepareBoilerplateDir IsExistingDir
    simp only []
    split
    · split <;> rfl
    · rfl
  unfold Run
  simp only [hl]
  have hp0 := hp (w.JoinPath opts.WorkingDir w.DefaultBoilerplateDir)
  cases h1 : prepareBoilerplateDir { w with WriteFile := answer }
      (w.JoinPath opts.WorkingDir w.DefaultBoilerplateDir) with
  | error e =>
    cases h2 : prepareBoilerplateDir w (w.JoinPath opts.WorkingDir w.DefaultBoilerplateDir) with
    | error e2 =>
      rw [h1, h2] at hp0
      simp [Except.map] at hp0
      subst hp0
      rfl
    | ok r2 => rw [h1, h2] at hp0; simp [Except.map] at hp0
  | ok r =>
    cases h2 : prepareBoilerplateDir w (w.JoinPath opts.WorkingDir w.DefaultBoilerplateDir) with
    | error e2 => rw [h1, h2] at hp0; simp [Except.map] at hp0
    | ok r2 =>
      rw [h1, h2] at hp0
      simp [Except.map] at hp0
      obtain ⟨a, b, c⟩ := r
      obtain ⟨a2, b2, c2⟩ := r2
      simp only at hp0
      obtain ⟨rfl, rfl⟩ := hp0
      rfl

/-- A failure of `os.MkdirTemp` for the template directory is fatal: `Run`
returns it and makes no further call. -/
theorem Run_template_MkdirTemp_failure (w : World) (opts : TerragruntOptions)
    (tempDir : String) (inputs : List String) (err : Error)
    (h0 : w.MkdirTemp "" "scaffold" 0 = Except.ok tempDir)
    (h1 : w.GetAny tempDir (opts.TerraformCliArgs.getD 1 "") = none)
    (h2 : w.CopyFolderContents tempDir opts.WorkingDir = none)
    (h3 : (listInputs w opts.WorkingDir).2 = Except.ok inputs)
    (h4 : IsExistingDir w (w.JoinPath opts.WorkingDir w.DefaultBoilerplateDir) = false)
    (h5 : w.MkdirTemp "" "scaffold" 1 = Except.error err) :
    (Run w opts).result = Except.error (Fault.err (WithStackTrace err))
    ∧ (Run w opts).trace
        = [Event.MkdirTemp "" "scaffold",
            Event.Infof scaffoldingFormat
              [opts.TerraformCliArgs.getD 1 "", opts.TerraformCliArgs.getD 2 "", opts.WorkingDir],
            Event.GetAny tempDir (opts.TerraformCliArgs.getD 1 ""),
            Event.CopyFolderContents tempDir opts.WorkingDir]
          ++ (listInputs w opts.WorkingDir).1
          ++ [Event.IsExistingDir (w.JoinPath opts.WorkingDir w.DefaultBoilerplateDir),
              Event.MkdirTemp "" "scaffold"] := by
  have hp : prepareBoilerplateDir w (w.JoinPath opts.WorkingDir w.DefaultBoilerplateDir)
      = Except.error err := by
    simp [prepareBoilerplateDir, h4, h5]
  unfold Run
  rw [cliArg_two, cliArg_three]
  simp only [h0, h1, h2, h3, hp]
  simp

/-- C6 (failing input): no module template directory exists and the write of
the default template fails; `Run` goes on to load the variables, to call the
renderer on the temporary directory and to reformat, and returns `nil`. -/
theorem C6_write_failure_not_fatal :
    IsExistingDir writeFailsWorld "/work/.boilerplate" = false
      ∧ writeFailsWorld.WriteFile "/tmp/scaffold2/terragrunt.hcl" defaultBoilerplateTemplate 0o644
          = some (Error.raw "no space left on device")
      ∧ Event.WriteFile "/tmp/scaffold2/terragrunt.hcl" defaultBoilerplateTemplate 0o644
          ∈ (Run writeFailsWorld (sampleOpts ["scaffold", "./mod"])).trace
      ∧ Event.ParseVars [] [] ∈ (Run writeFailsWorld (sampleOpts ["scaffold", "./mod"])).trace
      ∧ templateFolders (Run writeFailsWorld (sampleOpts ["scaffold", "./mod"])).trace
          = ["/tmp/scaffold2"]
      ∧ Event.hclfmtRun "/work" ∈ (Run writeFailsWorld (sampleOpts ["scaffold", "./mod"])).trace
      ∧ (Run writeFailsWorld (sampleOpts ["scaffold", "./mod"])).result = Except.ok () := by
  decide

/-- C7: when the getter fails, `Run` returns that error wrapped by
`errors.WithStackTrace`, and the calls it made are the creation of the
temporary directory, the log line and the getter call, nothing further: no
copy, scan, template setup, variable loading, render or reformat. -/
theorem C7_fetch_failure_stops_run (w : World) (opts : TerragruntOptions) (tempDir : String)
    (err : Error) (htemp : w.MkdirTemp "" "scaffold" 0 = Except.ok tempDir)
    (hfetch : w.GetAny tempDir (opts.TerraformCliArgs.getD 1 "") = some err) :
    Run w opts
      = ⟨[Event.MkdirTemp "" "scaffold",
          Event.Infof scaffoldingFormat
            [opts.TerraformCliArgs.getD 1 "", opts.TerraformCliArgs.getD 2 "", opts.WorkingDir],
          Event.GetAny tempDir (opts.TerraformCliArgs.getD 1 "")],
         Except.error (Fault.err (WithStackTrace err))⟩ := by
  unfold Run
  rw [cliArg_two, cliArg_three]
  simp only [htemp, hfetch]
  rfl

/-- C7 (witness): the getter answers `unreachable`. -/
theorem C7_witness_unreachable :
    Run fetchFailsWorld (sampleOpts ["scaffold", "git::https://example.com/mod"])
      = ⟨[Event.MkdirTemp "" "scaffold",
          Event.Infof scaffoldingFormat
            [(sampleOpts ["scaffold", "git::https://example.com/mod"]).TerraformCliArgs.getD 1 "",
             (sampleOpts ["scaffold", "git::https://example.com/mod"]).TerraformCliArgs.getD 2 "",
             (sampleOpts ["scaffold", "git::https://example.com/mod"]).WorkingDir],
          Event.GetAny "/tmp/scaffold1"
            ((sampleOpts ["scaffold", "git::https://example.com/mod"]).TerraformCliArgs.getD 1 "")],
         Except.error (Fault.err (WithStackTrace (Error.raw "unreachable")))⟩ :=
  C7_fetch_failure_stops_run fetchFailsWorld
    (sampleOpts ["scaffold", "git::https://example.com/mod"]) "/tmp/scaffold1"
    (Error.raw "unreachable") (by decide) (by decide)

theorem withoutScaffoldingLine_append (a b : List Event) :
    withoutScaffoldingLine (a ++ b) = withoutScaffoldingLine a ++ withoutScaffoldingLine b := by
  simp [withoutScaffoldingLine]

/-- Two runs whose options agree except for the CLI arguments, with the same
module locator, differ at most in the first log line. -/
theorem Run_template_locator_unobserved (w : World) (args args2 : List String)
    (dir : String) (vars files : List String)
    (hm : args2.getD 1 "" = args.getD 1 "") :
    (Run w ⟨args2, dir, vars, files⟩).result = (Run w ⟨args, dir, vars, files⟩).result
    ∧ withoutScaffoldingLine (Run w ⟨args2, dir, vars, files⟩).trace
        = withoutScaffoldingLine (Run w ⟨args, dir, vars, files⟩).trace := by
  unfold Run
  simp only [cliArg_two, cliArg_three, hm]
  cases w.MkdirTemp "" "scaffold" 0 with
  | error e => exact ⟨rfl, rfl⟩
  | ok tempDir =>
    simp only []
    cases w.GetAny tempDir (args.getD 1 "") with
    | some e => simp [withoutScaffoldingLine, isScaffoldingLine]
    | none =>
      simp only []
      cases w.CopyFolderContents tempDir dir with
      | some e => simp [withoutScaffoldingLine, isScaffoldingLine]
      | none =>
        simp only []
        cases (listInputs w dir).2 with
        | error fault => cases fault <;> simp [withoutScaffoldingLine, isScaffoldingLine]
        | ok inputs =>
          simp only []
          cases prepareBoilerplateDir w (w.JoinPath dir w.DefaultBoilerplateDir) with
          | error e => simp [withoutScaffoldingLine, isScaffoldingLine]
          | ok prepared =>
            obtain ⟨folder, calls, werr⟩ := prepared
            simp only []
            cases w.ParseVars vars files with
            | error e => simp [withoutScaffoldingLine, isScaffoldingLine]
            | ok user =>
              simp only []
              cases w.ProcessTemplate _ with
              | some e => simp [withoutScaffoldingLine, isScaffoldingLine]
              | none =>
                simp only []
                cases w.hclfmtRun dir with
                | some e => simp [withoutScaffoldingLine, isScaffoldingLine]
                | none => simp [withoutScaffoldingLine, isScaffoldingLine]

/-- C10: the guarded reads of the positional arguments never index out of
range: the module locator is the second CLI argument or empty, the template
locator the third or empty. Two runs in the same world whose options differ
in the CLI arguments only and have the same module locator return the same
result, make the same calls apart from the first log line, and hand the same
options (template folder and variables) to the renderer. -/
theorem C10_template_locator_only_logged (w : World) :
    (∀ args : List String,
        cliArg args 2 1 = Except.ok (args.getD 1 "")
        ∧ cliArg args 3 2 = Except.ok (args.getD 2 ""))
    ∧ ∀ opts opts2 : TerragruntOptions,
        opts2.WorkingDir = opts.WorkingDir →
        opts2.ScaffoldVars = opts.ScaffoldVars →
        opts2.ScaffoldVarFiles = opts.ScaffoldVarFiles →
        opts2.TerraformCliArgs.getD 1 "" = opts.TerraformCliArgs.getD 1 "" →
        (Run w opts2).result = (Run w opts).result
        ∧ withoutScaffoldingLine (Run w opts2).trace = withoutScaffoldingLine (Run w opts).trace
        ∧ ∀ bo, Event.ProcessTemplate bo ∈ (Run w opts2).trace
            ↔ Event.ProcessTemplate bo ∈ (Run w opts).trace := by
  refine ⟨fun args => ⟨cliArg_two args, cliArg_three args⟩, ?_⟩
  intro opts opts2 hd hv hf hm
  obtain ⟨args, dir, vars, files⟩ := opts
  obtain ⟨args2, dir2, vars2, files2⟩ := opts2
  simp only at hd hv hf hm
  subst hd hv hf
  obtain ⟨hres, htr⟩ := Run_template_locator_unobserved w args args2 dir2 vars2 files2 hm
  refine ⟨hres, htr, ?_⟩
  intro bo
  have hmem : ∀ t : List Event,
      Event.ProcessTemplate bo ∈ t ↔ Event.ProcessTemplate bo ∈ withoutScaffoldingLine t := by
    intro t
    simp [withoutScaffoldingLine, isScaffoldingLine]
  rw [hmem, hmem (Run w ⟨args, dir2, vars2, files2⟩).trace, htr]

/-- C10 (witness): the same module with and without a template locator. -/
theorem C10_witness_template_locator :
    (∀ args : List String,
        cliArg args 2 1 = Except.ok (args.getD 1 "")
        ∧ cliArg args 3 2 = Except.ok (args.getD 2 ""))
    ∧ (Run plainWorld (sampleOpts ["scaffold", "./mod", "git::https://example.com/tpl"])).result
        = (Run plainWorld (sampleOpts ["scaffold", "./mod"])).result
    ∧ withoutScaffoldingLine
          (Run plainWorld (sampleOpts ["scaffold", "./mod", "git::https://example.com/tpl"])).trace
        = withoutScaffoldingLine (Run plainWorld (sampleOpts ["scaffold", "./mod"])).trace
    ∧ ∀ bo, Event.ProcessTemplate bo
          ∈ (Run plainWorld (sampleOpts ["scaffold", "./mod", "git::https://example.com/tpl"])).trace
        ↔ Event.ProcessTemplate bo ∈ (Run plainWorld (sampleOpts ["scaffold", "./mod"])).trace :=
  ⟨(C10_template_locator_only_logged plainWorld).1,
    (C10_template_locator_only_logged plainWorld).2 (sampleOpts ["scaffold", "./mod"])
      (sampleOpts ["scaffold", "./mod", "git::https://example.com/tpl"]) rfl rfl rfl (by decide)⟩

/-! ## The default template -/

theorem defaultBoilerplateTemplate_parses :
    parseTokens none (lexTemplate false [] defaultBoilerplateTemplate.data)
      = some [Node.text renderedHeader,
          Node.range "parsedInputs" [Item.text "\n  ", Item.dot, Item.text " = \"\"\n  "],
          Node.text "\n\x7d\n"] := by
  decide

theorem execBody_assignment (name : String) :
    execBody name [Item.text "\n  ", Item.dot, Item.text " = \"\"\n  "] = assignment name := by
  simp [execBody, concat, assignment, String.append_assoc]

theorem foldl_append_concat (pieces : List String) :
    ∀ acc : String, pieces.foldl (fun r piece => r ++ piece) acc = acc ++ concat pieces := by
  induction pieces with
  | nil => intro acc; simp [concat]
  | cons piece rest ih =>
    intro acc
    simp [List.foldl_cons, ih, concat, String.append_assoc]

theorem concat_eq_join (pieces : List String) : concat pieces = String.join pieces := by
  unfold String.join
  rw [foldl_append_concat]
  simp

/-- C8: with the sequence `names` bound to `parsedInputs`, the default
template renders to its fixed opening (which sets `source = "."` and holds the
text `${.moduleUrl}` unexpanded), then for each name in order the line
`<name> = ""`, then the closing brace, and nothing else; rebinding `moduleUrl`
does not change the output. -/
theorem C8_default_template_lists_inputs (vars : Vars) (names : List String)
    (h : Vars.get vars "parsedInputs" = some (Value.strings names)) :
    render defaultBoilerplateTemplate vars
      = some ("\n# This is a Terragrunt module generated by boilerplate.\nterraform \x7b\n  # $\x7b.moduleUrl\x7d\n  source = \".\"\n\x7d\n\ninputs = \x7b\n  "
          ++ String.join (names.map (fun name => "\n  " ++ name ++ " = \"\"\n  "))
          ++ "\n\x7d\n")
    ∧ ∀ moduleUrl : String,
        render defaultBoilerplateTemplate (Vars.set vars "moduleUrl" (Value.string moduleUrl))
          = render defaultBoilerplateTemplate vars := by
  have hrender : ∀ vs : Vars, Vars.get vs "parsedInputs" = some (Value.strings names) →
      render defaultBoilerplateTemplate vs
        = some (renderedHeader ++ concat (names.map assignment) ++ "\n\x7d\n") := by
    intro vs hvs
    unfold render
    rw [defaultBoilerplateTemplate_parses]
    simp only [execNodes, hvs, Option.map]
    have hb : (fun elem => execBody elem [Item.text "\n  ", Item.dot, Item.text " = \"\"\n  "])
        = assignment := funext execBody_assignment
    rw [hb]
    simp [String.append_assoc]
  constructor
  · rw [hrender vars h, concat_eq_join]
    rfl
  · intro moduleUrl
    rw [hrender vars h, hrender _ (by rw [Vars.get_set_other _ _ _ _ (by decide)]; exact h)]

/-- C8 (witness): the example of the specification: the rendered text, in
full, assigns `region` then `name`. -/
theorem C8_witness_region_name :
    render defaultBoilerplateTemplate exampleVars
      = some "\n# This is a Terragrunt module generated by boilerplate.\nterraform \x7b\n  # $\x7b.moduleUrl\x7d\n  source = \".\"\n\x7d\n\ninputs = \x7b\n  \n  region = \"\"\n  \n  name = \"\"\n  \n\x7d\n"
    ∧ ∀ moduleUrl : String,
        render defaultBoilerplateTemplate (Vars.set exampleVars "moduleUrl" (Value.string moduleUrl))
          = render defaultBoilerplateTemplate exampleVars :=
  ⟨(C8_default_template_lists_inputs exampleVars ["region", "name"] (by decide)).1.trans
      (by decide),
    (C8_default_template_lists_inputs exampleVars ["region", "name"] (by decide)).2⟩

end Scaffold
